import Mathlib

/-!
Verification development for the Kakao school-bot webhook (src/main.py).

The Python program is shallowly embedded: strings are Lean `String`
(processed as `List Char`), Python `datetime.date` is the `Date` structure
below (proleptic Gregorian, with `dt.date` construction modelled as an
`Option`-returning validator), the sqlite user table is an association
list, HTTP/scraping providers are passed in as explicit `Except`-valued
parameters (an `Except.error` models an exception raised inside the
provider call), and the specific regular expressions of the source are
implemented directly as leftmost-match scanners with the same
backtracking order as Python `re`.
-/

/- ===== Character classes (Python `re` semantics for the characters used) ===== -/

/-- `\d` for the inputs in scope. -/
def isDigitCh (c : Char) : Bool := '0' ≤ c && c ≤ '9'

/-- Python `\s` / `str.strip` whitespace (ASCII part; the program's inputs use these). -/
def isSpaceCh (c : Char) : Bool :=
  c = ' ' || c = '\t' || c = '\n' || c = '\r' || c = '\x0b' || c = '\x0c'

/-- Python (Unicode) `\w` restricted to the character repertoire the program
handles: ASCII alphanumerics, underscore, and Hangul syllables. -/
def isWordCh (c : Char) : Bool :=
  isDigitCh c || ('a' ≤ c && c ≤ 'z') || ('A' ≤ c && c ≤ 'Z') || c = '_' ||
    (0xAC00 ≤ c.toNat && c.toNat ≤ 0xD7A3)

/-- `int()` on a run of decimal digits. -/
def digitsToNat (l : List Char) : Nat :=
  l.foldl (fun n c => 10 * n + (c.toNat - 48)) 0

/- ===== String helpers ===== -/

/-- `str.strip()` on the character list. -/
def stripChars (l : List Char) : List Char :=
  ((l.dropWhile isSpaceCh).reverse.dropWhile isSpaceCh).reverse

/-- `str.strip()`. -/
def stripStr (s : String) : String := ⟨stripChars s.data⟩

/-- Python substring containment (`needle in hay`). -/
def containsTok (needle : List Char) : List Char → Bool
  | [] => needle.isPrefixOf []
  | c :: rest => needle.isPrefixOf (c :: rest) || containsTok needle rest

/-- `needle in t` on strings. -/
def hasTok (needle : String) (t : String) : Bool := containsTok needle.data t.data

/-- `str.startswith`. -/
def startsWithStr (t s : String) : Bool := s.data.isPrefixOf t.data

/-- `"\n".join`. -/
def joinNL (l : List String) : String := String.intercalate "\n" l

/- ===== Dates (Python `datetime.date`) ===== -/

/-- A (possibly not yet validated) calendar date.  Python's `dt.date` only ever
holds validated dates; validity is tracked by `isValidDate`. -/
structure Date where
  year : Nat
  month : Nat
  day : Nat
deriving DecidableEq, Repr

def isLeap (y : Nat) : Bool := (y % 4 == 0 && y % 100 != 0) || y % 400 == 0

def daysInMonth (y m : Nat) : Nat :=
  match m with
  | 1 => 31 | 2 => if isLeap y then 29 else 28 | 3 => 31 | 4 => 30 | 5 => 31
  | 6 => 30 | 7 => 31 | 8 => 31 | 9 => 30 | 10 => 31 | 11 => 30 | 12 => 31
  | _ => 0

/-- Structural validity of a date (proleptic Gregorian, year at least 1). -/
def isValidDate (d : Date) : Bool :=
  decide (1 ≤ d.year) && decide (1 ≤ d.month) && decide (d.month ≤ 12) &&
    decide (1 ≤ d.day) && decide (d.day ≤ daysInMonth d.year d.month)

/-- Days before month `m` in year `y`. -/
def daysBeforeMonth (y m : Nat) : Nat :=
  (match m with
   | 1 => 0 | 2 => 31 | 3 => 59 | 4 => 90 | 5 => 120 | 6 => 151 | 7 => 181
   | 8 => 212 | 9 => 243 | 10 => 273 | 11 => 304 | 12 => 334 | _ => 365) +
  (if 3 ≤ m ∧ isLeap y then 1 else 0)

/-- Python `date.toordinal()`: 0001-01-01 is day 1 of the proleptic Gregorian
calendar. -/
def toOrd (d : Date) : Nat :=
  365 * (d.year - 1) + (d.year - 1) / 4 - (d.year - 1) / 100 + (d.year - 1) / 400 +
    daysBeforeMonth d.year d.month + d.day

/-- Python `date.weekday()`: Monday = 0 … Sunday = 6. -/
def weekday (d : Date) : Nat := (toOrd d + 6) % 7

/-- The next calendar day. -/
def succDay (d : Date) : Date :=
  if d.day < daysInMonth d.year d.month then ⟨d.year, d.month, d.day + 1⟩
  else if d.month < 12 then ⟨d.year, d.month + 1, 1⟩
  else ⟨d.year + 1, 1, 1⟩

/-- The previous calendar day. -/
def predDay (d : Date) : Date :=
  if 1 < d.day then ⟨d.year, d.month, d.day - 1⟩
  else if 1 < d.month then ⟨d.year, d.month - 1, daysInMonth d.year (d.month - 1)⟩
  else ⟨d.year - 1, 12, 31⟩

/-- `date + timedelta(days=k)` (`k` calendar-day successors; extensionally the
Python operation on every representable date). -/
def addDays : Date → Nat → Date
  | d, 0 => d
  | d, k + 1 => addDays (succDay d) k

/-- `date - timedelta(days=k)`. -/
def subDays : Date → Nat → Date
  | d, 0 => d
  | d, k + 1 => predDay (subDays d k)

/-- Python date comparison (lexicographic on year, month, day). -/
def dateLE (a b : Date) : Prop :=
  a.year < b.year ∨ (a.year = b.year ∧
    (a.month < b.month ∨ (a.month = b.month ∧ a.day ≤ b.day)))

instance : DecidableRel dateLE := fun a b => by unfold dateLE; infer_instance

/- ===== strftime pieces used by the program ===== -/

def pad2 (n : Nat) : String := if n < 10 then "0" ++ toString n else toString n

def pad4 (n : Nat) : String :=
  if n < 10 then "000" ++ toString n
  else if n < 100 then "00" ++ toString n
  else if n < 1000 then "0" ++ toString n
  else toString n

/-- `%a` in the C locale. -/
def weekdayAbbr (w : Nat) : String :=
  match w with
  | 0 => "Mon" | 1 => "Tue" | 2 => "Wed" | 3 => "Thu" | 4 => "Fri" | 5 => "Sat"
  | _ => "Sun"

/-- `date.strftime('%m/%d(%a)')`. -/
def strftimeMDa (d : Date) : String :=
  pad2 d.month ++ "/" ++ pad2 d.day ++ "(" ++ weekdayAbbr (weekday d) ++ ")"

/-- `date.strftime('%Y-%m-%d')`. -/
def strftimeYMD (d : Date) : String :=
  pad4 d.year ++ "-" ++ pad2 d.month ++ "-" ++ pad2 d.day

/-- `date.strftime('%Y%m')`. -/
def strftimeYM (d : Date) : String := pad4 d.year ++ pad2 d.month

/-- The `dt.date(y, m, d)` constructor: `some` on success, `none` for the
`ValueError` branch (Python also bounds the year by 9999). -/
def mkDate (year month day : Nat) : Option Date :=
  if isValidDate ⟨year, month, day⟩ && decide (year ≤ 9999) then some ⟨year, month, day⟩
  else none

/- ===== Regex scanners of `parse_korean_date` (src/main.py lines 83-112) =====
Each implements `re.search` of the specific pattern: positions are tried left
to right, and at a position the greedy `{1,2}` groups are tried longest
first, exactly as Python's backtracking does. -/

/-- Match exactly `n` digits at the head, returning their value and the rest. -/
def takeExactDigits (n : Nat) (l : List Char) : Option (Nat × List Char) :=
  if ((l.take n).length == n) && (l.take n).all isDigitCh then
    some (digitsToNat (l.take n), l.drop n)
  else none

/-- Tail of the Korean pattern after `월`: `\s*(\d{n2})\s*일`. -/
def koreanDay (n2 : Nat) (r : List Char) : Option Nat :=
  match takeExactDigits n2 r with
  | none => none
  | some (dd, r5) =>
    match r5.dropWhile isSpaceCh with
    | '일' :: _ => some dd
    | _ => none

/-- `(\d{n1})\s*월\s*(\d{1,2})\s*일` anchored at the current position. -/
def koreanFrom (n1 : Nat) (l : List Char) : Option (Nat × Nat) :=
  match takeExactDigits n1 l with
  | none => none
  | some (mm, r1) =>
    match r1.dropWhile isSpaceCh with
    | '월' :: r3 =>
      let r4 := r3.dropWhile isSpaceCh
      match koreanDay 2 r4 with
      | some dd => some (mm, dd)
      | none => koreanDay 1 r4
    | _ => none

/-- `(\d{1,2})\s*월\s*(\d{1,2})\s*일` anchored at the current position. -/
def matchKoreanAt (l : List Char) : Option (Nat × Nat) :=
  match koreanFrom 2 l with
  | some r => some r
  | none => koreanFrom 1 l

/-- `re.search(r"(\d{1,2})\s*월\s*(\d{1,2})\s*일", ·)`. -/
def scanKorean : List Char → Option (Nat × Nat)
  | [] => none
  | c :: rest =>
    match matchKoreanAt (c :: rest) with
    | some r => some r
    | none => scanKorean rest

def wordB (o : Option Char) : Bool :=
  match o with
  | some c => isWordCh c
  | none => false

/-- A `\b` word boundary between the previous character and the current rest. -/
def boundaryB (prev : Option Char) (l : List Char) : Bool := wordB prev != wordB l.head?

/-- `(\d{n1})[.,slash,dash](\d{n2})\b` anchored at the current position. -/
def mdPair (n1 n2 : Nat) (l : List Char) : Option (Nat × Nat) :=
  match takeExactDigits n1 l with
  | none => none
  | some (a, r1) =>
    match r1 with
    | s :: r2 =>
      if s = '.' || s = '/' || s = '-' then
        match takeExactDigits n2 r2 with
        | none => none
        | some (b, r3) => if wordB r3.head? then none else some (a, b)
      else none
    | [] => none

/-- `\b(\d{1,2})[.,slash,dash](\d{1,2})\b` anchored at the current position. -/
def matchMDAt (prev : Option Char) (l : List Char) : Option (Nat × Nat) :=
  if boundaryB prev l then
    match mdPair 2 2 l with
    | some r => some r
    | none =>
      match mdPair 2 1 l with
      | some r => some r
      | none =>
        match mdPair 1 2 l with
        | some r => some r
        | none => mdPair 1 1 l
  else none

/-- `re.search(r"\b(\d{1,2})[.,slash,dash](\d{1,2})\b", ·)`. -/
def scanMD : Option Char → List Char → Option (Nat × Nat)
  | _, [] => none
  | prev, c :: rest =>
    match matchMDAt prev (c :: rest) with
    | some r => some r
    | none => scanMD (some c) rest

/-- Tail of the year pattern after the separator: `(\d{n2})[.,slash,dash](\d{n3})\b`. -/
def ymdTail (y n2 n3 : Nat) (r2 : List Char) : Option (Nat × Nat × Nat) :=
  match takeExactDigits n2 r2 with
  | none => none
  | some (m, r3) =>
    match r3 with
    | s2 :: r4 =>
      if s2 = '.' || s2 = '/' || s2 = '-' then
        match takeExactDigits n3 r4 with
        | none => none
        | some (d, r5) => if wordB r5.head? then none else some (y, m, d)
      else none
    | [] => none

/-- `\b(20\d{2})[.,slash,dash](\d{1,2})[.,slash,dash](\d{1,2})\b` anchored at the current position. -/
def matchYMDAt (prev : Option Char) (l : List Char) : Option (Nat × Nat × Nat) :=
  if boundaryB prev l then
    match l with
    | '2' :: '0' :: a :: b :: s :: r2 =>
      if isDigitCh a && isDigitCh b && (s = '.' || s = '/' || s = '-') then
        let y := 2000 + 10 * (a.toNat - 48) + (b.toNat - 48)
        match ymdTail y 2 2 r2 with
        | some r => some r
        | none =>
          match ymdTail y 2 1 r2 with
          | some r => some r
          | none =>
            match ymdTail y 1 2 r2 with
            | some r => some r
            | none => ymdTail y 1 1 r2
      else none
    | _ => none
  else none

/-- `re.search(r"\b(20\d{2})[.,slash,dash](\d{1,2})[.,slash,dash](\d{1,2})\b", ·)`. -/
def scanYMD : Option Char → List Char → Option (Nat × Nat × Nat)
  | _, [] => none
  | prev, c :: rest =>
    match matchYMDAt prev (c :: rest) with
    | some r => some r
    | none => scanYMD (some c) rest

/-- `parse_korean_date` (src/main.py lines 83-112).  The caller always passes
the reference date explicitly (the Python default argument is the ambient KST
date, supplied by the webhook). -/
def parse_korean_date (text : String) (base : Date) : Option Date :=
  let t := stripStr text
  if hasTok "오늘" t then some base
  else if hasTok "내일" t then some (addDays base 1)
  else
    match scanKorean t.data with
    | some (m, d) => mkDate base.year m d
    | none =>
      match scanMD none t.data with
      | some (m, d) => mkDate base.year m d
      | none =>
        match scanYMD none t.data with
        | some (y, m, d) => mkDate y m d
        | none => none

/- ===== Kakao reply payload (src/main.py lines 63-80) ===== -/

structure QuickReply where
  action : String
  label : String
  messageText : String
deriving DecidableEq, Repr

inductive KOutput where
  | simpleText (text : String) : KOutput
deriving DecidableEq, Repr

/-- The reply envelope: `version`, `template.outputs`, and the optional
`template.quickReplies` key. -/
structure KPayload where
  version : String
  outputs : List KOutput
  quickReplies : Option (List QuickReply)
deriving DecidableEq, Repr

/-- `kakao_simple_text` (lines 63-70).  The `if quick_replies:` truthiness test
means the key is only set for a non-`None`, non-empty list. -/
def kakao_simple_text (text : String) (quick_replies : Option (List QuickReply)) : KPayload :=
  { version := "2.0"
    outputs := [KOutput.simpleText text]
    quickReplies :=
      match quick_replies with
      | some (q :: qs) => some (q :: qs)
      | _ => none }

/-- `qr_default` (lines 72-80). -/
def qr_default : List QuickReply :=
  [⟨"message", "오늘 시간표", "오늘 시간표"⟩,
   ⟨"message", "내일 시간표", "내일 시간표"⟩,
   ⟨"message", "오늘 급식", "오늘 급식"⟩,
   ⟨"message", "이번 주 학사일정", "이번 주 학사일정"⟩,
   ⟨"message", "이번 달 학사일정", "이번 달 학사일정"⟩,
   ⟨"message", "학년/반 변경", "학년/반 변경"⟩]

/-- The observable envelope fields of a reply (version, number of outputs,
presence of the quickReplies key). -/
def payloadFields (p : KPayload) : String × Nat × Bool :=
  (p.version, p.outputs.length, p.quickReplies.isSome)

/- ===== User registry (sqlite table `users`, lines 26-58) ===== -/

/-- A row of the `users` table (`grade`, `class` INTEGER columns). -/
structure Profile where
  grade : Int
  classNum : Int
deriving DecidableEq, Repr

abbrev Registry := List (String × Profile)

/-- `get_user` (lines 40-48): SELECT the row whose primary key equals
`kakao_id`. -/
def get_user (db : Registry) (kakao_id : String) : Option Profile :=
  match db with
  | [] => none
  | (k, p) :: rest => if k = kakao_id then some p else get_user rest kakao_id

/-- `set_user` (lines 50-58): INSERT OR REPLACE keyed by `kakao_id`. -/
def set_user (db : Registry) (kakao_id : String) (grade clas : Int) : Registry :=
  (kakao_id, ⟨grade, clas⟩) :: db.filter (fun p => p.1 != kakao_id)

/- ===== Timetable provider (pycomcigan), lines 114-159 ===== -/

/-- The object returned by `TimeTable(school, week_num=...)`: the nested
`timetable` list and the values of `getattr(tt, "MONDAY", 0)` …
`getattr(tt, "FRIDAY", 4)`. -/
structure TTData where
  timetable : List (List (List (List String)))
  monday : Nat
  tuesday : Nat
  wednesday : Nat
  thursday : Nat
  friday : Nat

/-- Python list indexing, including negative-index wraparound; `none` models
an `IndexError`. -/
def pyIndex {α : Type} (l : List α) (i : Int) : Option α :=
  if 0 ≤ i then l.get? i.toNat
  else if i.natAbs ≤ l.length then l.get? (l.length - i.natAbs)
  else none

/-- `tt.timetable[g][c][day_idx]`. -/
def ttLookup (tt : TTData) (g c : Int) (dayIdx : Nat) : Option (List String) :=
  match pyIndex tt.timetable g with
  | none => none
  | some byGrade =>
    match pyIndex byGrade c with
    | none => none
    | some byClass => pyIndex byClass (Int.ofNat dayIdx)

/-- `re.sub(r"^\d+\s*교시[:\s-]*", "", s)` (anchored, so at most one removal). -/
def stripGyosi (s : String) : String :=
  if (s.data.takeWhile isDigitCh).isEmpty then s
  else
    match (s.data.dropWhile isDigitCh).dropWhile isSpaceCh with
    | '교' :: '시' :: r2 => ⟨r2.dropWhile (fun c => c = ':' || isSpaceCh c || c = '-')⟩
    | _ => s

/-- The `for i, subj in enumerate(day_list, start=1)` loop body (lines 147-153).
Skipped subjects still consume their period number. -/
def timetableLines (day_list : List String) : List String :=
  day_list.enum.filterMap (fun p =>
    let s := stripStr p.2
    if s = "" || s = "None" || s = "-" || s = "()" || s = "빈" then none
    else some (toString (p.1 + 1) ++ "교시: " ++ stripGyosi s))

/-- `fetch_timetable_text` (lines 117-159).  `provider` models the fallible
`TimeTable(...)` construction for a given `week_num`; `today` is the ambient
KST date the function reads (supplied by the caller here). -/
def fetch_timetable_text (provider : Int → Except String TTData) (grade clas : Int)
    (target_date today : Date) : String :=
  if 5 ≤ weekday target_date then "주말에는 시간표가 없습니다."
  else
    let delta_weeks : Int := ((toOrd target_date : Int) - (toOrd today : Int)).fdiv 7
    let week_num : Int := max 0 (min 1 delta_weeks)
    match provider week_num with
    | Except.error e => "시간표 불러오기 실패: " ++ e
    | Except.ok tt =>
      let day_idx :=
        [tt.monday, tt.tuesday, tt.wednesday, tt.thursday, tt.friday].getD
          (weekday target_date) 0
      let dayList? :=
        match ttLookup tt grade clas day_idx with
        | some dl => some dl
        | none => ttLookup tt (grade - 1) (clas - 1) day_idx
      match dayList? with
      | none => "시간표 불러오기 실패: list index out of range"
      | some day_list =>
        if day_list.isEmpty then "해당 학년/반 시간표가 없습니다."
        else
          let lines := timetableLines day_list
          if lines.isEmpty then "해당 날짜에 수업이 없습니다."
          else joinNL lines

/- ===== Meal provider (koreacharts scrape), lines 161-199 ===== -/

/-- A `<p>` inside the meal cell: the text of its `<b>` tag (`""` when absent)
and the result of `p.get_text("\n", strip=True)`. -/
structure MealPara where
  label : String
  content : String
deriving DecidableEq, Repr

/-- A `<td class="text-center">`: its stripped text and its paragraphs. -/
structure MealCell where
  text : String
  paras : List MealPara
deriving DecidableEq, Repr

/-- Python `str.replace(needle, "")` (all non-overlapping occurrences, left to
right; the program only calls it with a non-empty needle). -/
def removeAll (l needle : List Char) : List Char :=
  match l with
  | [] => []
  | c :: rest =>
    if h : needle.isEmpty = false ∧ needle.isPrefixOf (c :: rest) = true then
      removeAll ((c :: rest).drop needle.length) needle
    else c :: removeAll rest needle
termination_by l.length
decreasing_by
all_goals simp_all
rcases h with ⟨h1, h2⟩
cases needle with
| nil => simp at h1
| cons x xs => simp

/-- `fetch_meal_text` (lines 164-199).  `page` models the HTTP fetch plus
HTML parse: the rows of `text-center` cells, or the raised exception. -/
def fetch_meal_text (page : Except String (List (List MealCell))) (target_date : Date) : String :=
  match page with
  | Except.error e => "급식 불러오기 실패: " ++ e
  | Except.ok rows =>
    let target_day := toString target_date.day
    match rows.find? (fun cols =>
        decide (3 ≤ cols.length) && ((cols.headD ⟨"", []⟩).text == target_day)) with
    | none => strftimeYMD target_date ++ " 급식 정보가 없습니다."
    | some cols =>
      let meal_cell := cols.getD 2 ⟨"", []⟩
      let meals := meal_cell.paras.filterMap (fun p =>
        let label := p.label
        let content :=
          if (label != "") && containsTok label.data p.content.data then
            stripStr ⟨removeAll p.content.data label.data⟩
          else p.content
        if content != "" then
          some (if label != "" then stripStr (label ++ "\n" ++ content) else content)
        else none)
      if meals.isEmpty then strftimeYMD target_date ++ " 급식 정보가 없습니다."
      else String.intercalate "\n\n" meals
def ACADEMIC_SCHEDULE : List (String × String) := [
  ("2025-09-01", "학부모 상담주간(3)"),
  ("2025-09-02", ""),
  ("2025-09-03", "전국연합(1,2)/대수능 모의평가(3)/목요일 시간표"),
  ("2025-09-04", ""),
  ("2025-09-05", "학부모 수업 공개의 날(3)"),
  ("2025-09-06", ""),
  ("2025-09-07", ""),
  ("2025-09-08", ""),
  ("2025-09-09", ""),
  ("2025-09-10", ""),
  ("2025-09-11", ""),
  ("2025-09-12", ""),
  ("2025-09-13", ""),
  ("2025-09-14", ""),
  ("2025-09-15", ""),
  ("2025-09-16", ""),
  ("2025-09-17", ""),
  ("2025-09-18", ""),
  ("2025-09-19", ""),
  ("2025-09-20", ""),
  ("2025-09-21", ""),
  ("2025-09-22", ""),
  ("2025-09-23", ""),
  ("2025-09-24", ""),
  ("2025-09-25", "1차 지필평가(3)"),
  ("2025-09-26", "1차 지필평가(3)"),
  ("2025-09-27", ""),
  ("2025-09-28", ""),
  ("2025-09-29", "1차 지필평가(3)"),
  ("2025-09-30", "1차 지필평가(3)"),
  ("2025-10-01", "1차 지필평가(3)"),
  ("2025-10-02", ""),
  ("2025-10-03", "개천절"),
  ("2025-10-04", ""),
  ("2025-10-05", ""),
  ("2025-10-06", "추석"),
  ("2025-10-07", "추석연휴"),
  ("2025-10-08", "대체공휴일"),
  ("2025-10-09", "한글날"),
  ("2025-10-10", "재량휴업일"),
  ("2025-10-11", ""),
  ("2025-10-12", ""),
  ("2025-10-13", ""),
  ("2025-10-14", "전국연합(1,2,3)"),
  ("2025-10-15", ""),
  ("2025-10-16", ""),
  ("2025-10-17", ""),
  ("2025-10-18", ""),
  ("2025-10-19", ""),
  ("2025-10-20", "1차 지필평가(1,2)"),
  ("2025-10-21", "1차 지필평가(1,2)"),
  ("2025-10-22", "1차 지필평가(1,2)"),
  ("2025-10-23", "1차 지필평가(1,2)"),
  ("2025-10-24", "(성적이의신청기간)"),
  ("2025-10-25", ""),
  ("2025-10-26", ""),
  ("2025-10-27", "(성적이의신청기간)"),
  ("2025-10-28", "(성적이의신청기간)/목요일 시간표"),
  ("2025-10-29", ""),
  ("2025-10-30", ""),
  ("2025-10-31", ""),
  ("2025-11-01", "♡제작자 생일♡(2학년 8반 21번 사물함에 선물 두고 가세요)"),
  ("2025-11-02", ""),
  ("2025-11-03", "학부모 상담주간(1,2)"),
  ("2025-11-04", ""),
  ("2025-11-05", ""),
  ("2025-11-06", ""),
  ("2025-11-07", "학부모 수업 공개의 날(1,2)"),
  ("2025-11-08", ""),
  ("2025-11-09", ""),
  ("2025-11-10", ""),
  ("2025-11-11", ""),
  ("2025-11-12", ""),
  ("2025-11-13", "대학수학능력시험(재량휴업일)-모르는건 3번!"),
  ("2025-11-14", ""),
  ("2025-11-15", ""),
  ("2025-11-16", ""),
  ("2025-11-17", "2차 지필평가(3)"),
  ("2025-11-18", "2차 지필평가(3)"),
  ("2025-11-19", ""),
  ("2025-11-20", ""),
  ("2025-11-21", ""),
  ("2025-11-22", ""),
  ("2025-11-23", ""),
  ("2025-11-24", ""),
  ("2025-11-25", ""),
  ("2025-11-26", ""),
  ("2025-11-27", ""),
  ("2025-11-28", "축제/동아리 발표회"),
  ("2025-11-29", ""),
  ("2025-11-30", ""),
  ("2025-12-01", ""),
  ("2025-12-02", ""),
  ("2025-12-03", ""),
  ("2025-12-04", ""),
  ("2025-12-05", ""),
  ("2025-12-06", ""),
  ("2025-12-07", ""),
  ("2025-12-08", ""),
  ("2025-12-09", ""),
  ("2025-12-10", ""),
  ("2025-12-11", ""),
  ("2025-12-12", ""),
  ("2025-12-13", ""),
  ("2025-12-14", ""),
  ("2025-12-15", ""),
  ("2025-12-16", ""),
  ("2025-12-17", ""),
  ("2025-12-18", "2차 지필평가(1,2)"),
  ("2025-12-19", "2차 지필평가(1,2)"),
  ("2025-12-20", ""),
  ("2025-12-21", ""),
  ("2025-12-22", "2차 지필평가(1,2)"),
  ("2025-12-23", "2차 지필평가(1,2)"),
  ("2025-12-24", "(성적이의신청기간)"),
  ("2025-12-25", "성탄절"),
  ("2025-12-26", "(성적이의신청기간)"),
  ("2025-12-27", ""),
  ("2025-12-28", ""),
  ("2025-12-29", "(성적이의신청기간)"),
  ("2025-12-30", ""),
  ("2025-12-31", "")]

/-- `dt.datetime.strptime(row["date"], "%Y-%m-%d").date()` on the canonical
zero-padded strings stored in `ACADEMIC_SCHEDULE` (`none` models the raised
parse/validation error, which the loop turns into `continue`). -/
def parseYMDTable (s : String) : Option Date :=
  match s.data with
  | [y1, y2, y3, y4, '-', m1, m2, '-', d1, d2] =>
    if [y1, y2, y3, y4, m1, m2, d1, d2].all isDigitCh then
      let y := digitsToNat [y1, y2, y3, y4]
      let m := digitsToNat [m1, m2]
      let d := digitsToNat [d1, d2]
      if isValidDate ⟨y, m, d⟩ && decide (y ≤ 9999) then some ⟨y, m, d⟩ else none
    else none
  | _ => none

/-- The body of the `for row in ACADEMIC_SCHEDULE` loop in
`fetch_calendar_items` (lines 337-346): parse the date, keep it when it lies
in `[start, end]`, and render `"MM/DD(Day) - title"` (title may be empty). -/
def calRowEntry (start endD : Date) (row : String × String) : Option String :=
  match parseYMDTable row.1 with
  | none => none
  | some d =>
    if dateLE start d ∧ dateLE d endD then
      let title := stripStr row.2
      some (if title ≠ "" then strftimeMDa d ++ " - " ++ title
            else strftimeMDa d ++ " - ")
    else none

/-- `s.split(" - ")[0]`. -/
def takeBeforeSep : List Char → List Char
  | [] => []
  | c :: rest =>
    if [' ', '-', ' '].isPrefixOf (c :: rest) then [] else c :: takeBeforeSep rest

/-- The sort key `dt.datetime.strptime(s.split(" - ")[0], "%m/%d(%a)")` of an
entry rendered by `calRowEntry`, as its (month, day) pair (the parsed year is
the constant 1900, so comparison is on month then day).  The fallback `(0, 0)`
is unreachable on rendered entries. -/
def calKey (s : String) : Nat × Nat :=
  match takeBeforeSep s.data with
  | m1 :: m2 :: '/' :: d1 :: d2 :: _ =>
    if [m1, m2, d1, d2].all isDigitCh then (digitsToNat [m1, m2], digitsToNat [d1, d2])
    else (0, 0)
  | _ => (0, 0)

def keyLE (a b : Nat × Nat) : Bool :=
  decide (a.1 < b.1) || ((a.1 == b.1) && decide (a.2 ≤ b.2))

instance keyRelTrans : IsTrans String (fun a b => keyLE (calKey a) (calKey b) = true) where
  trans := by
    intro a b c hab hbc
    simp only [keyLE, Bool.or_eq_true, Bool.and_eq_true, decide_eq_true_eq, beq_iff_eq] at *
    omega

/-- Stable insertion of `x` into a keyLE-sorted list (equal keys keep the
earlier element first, as Python's stable `list.sort` does). -/
def insSorted (x : String) : List String → List String
  | [] => [x]
  | y :: ys => if keyLE (calKey x) (calKey y) then x :: y :: ys else y :: insSorted x ys

/-- `items.sort(key=...)`: a stable sort by `calKey` (stable sorts agree
extensionally, so insertion sort is the Python sort). -/
def sortByKey : List String → List String
  | [] => []
  | x :: xs => insSorted x (sortByKey xs)

/-- `fetch_calendar_items` (lines 335-352). -/
def fetch_calendar_items (start endD : Date) : List String :=
  let items := ACADEMIC_SCHEDULE.filterMap (calRowEntry start endD)
  if items.isEmpty then [] else sortByKey items

/-- `format_week_range` (lines 354-357). -/
def format_week_range (day : Date) : Date × Date :=
  let start := subDays day (weekday day)
  (start, addDays start 6)

/-- `re.match(r"(\d+)\s*학년\s*(\d+)반", t)`: anchored at the start of the
text; returns the two parsed integers. -/
def reMatchGradeClass (l : List Char) : Option (Nat × Nat) :=
  let ds := l.takeWhile isDigitCh
  if ds.isEmpty then none
  else
    match (l.dropWhile isDigitCh).dropWhile isSpaceCh with
    | '학' :: '년' :: r2 =>
      let r3 := r2.dropWhile isSpaceCh
      let cs := r3.takeWhile isDigitCh
      if cs.isEmpty then none
      else
        match r3.dropWhile isDigitCh with
        | '반' :: _ => some (digitsToNat ds, digitsToNat cs)
        | _ => none
    | _ => none

/-- `re.fullmatch(r"\d+\s+\d+", t)` plus `map(int, t.split())`. -/
def fullmatchTwoInts (l : List Char) : Option (Nat × Nat) :=
  let ds := l.takeWhile isDigitCh
  if ds.isEmpty then none
  else
    let r1 := l.dropWhile isDigitCh
    if (r1.takeWhile isSpaceCh).isEmpty then none
    else
      let r2 := r1.dropWhile isSpaceCh
      let cs := r2.takeWhile isDigitCh
      if cs.isEmpty then none
      else if r2.dropWhile isDigitCh ≠ [] then none
      else some (digitsToNat ds, digitsToNat cs)

/- ===== The webhook handler (lines 360-427) ===== -/

/-- `webhook` after body extraction: `user_id` (empty string models a missing
falsy id), the raw utterance, and the ambient KST date `now`.  The two
provider arguments stand for the timetable and meal fetches.  Returns the
registry after the request together with the reply payload. -/
def webhook (ttProv : Int → Except String TTData)
    (mealProv : String → Except String (List (List MealCell)))
    (db : Registry) (user_id : String) (utterance : String) (now : Date) :
    Registry × KPayload :=
  let t := stripStr utterance
  if user_id = "" then
    (db, kakao_simple_text "사용자 ID를 확인할 수 없습니다." (some qr_default))
  else
    let user := get_user db user_id
    if startsWithStr t "학년/반 변경" then
      (db, kakao_simple_text "변경할 학년과 반을 입력해주세요. 예: 2 8 또는 2학년 8반" none)
    else
      match reMatchGradeClass t.data with
      | some (g, c) =>
        (set_user db user_id (g : Int) (c : Int),
         kakao_simple_text ("학년/반을 " ++ toString g ++ "학년 " ++ toString c ++ "반으로 설정했습니다.")
           (some qr_default))
      | none =>
      match fullmatchTwoInts t.data with
      | some (g, c) =>
        (set_user db user_id (g : Int) (c : Int),
         kakao_simple_text ("학년/반을 " ++ toString g ++ "학년 " ++ toString c ++ "반으로 설정했습니다.")
           (some qr_default))
      | none =>
      match user with
      | none =>
        (db, kakao_simple_text "안녕하세요! 사용하실 학년과 반을 입력해주세요. 예: 2 8 또는 2학년 8반"
          (some qr_default))
      | some u =>
        if hasTok "시간표" t then
          let target := (parse_korean_date t now).getD now
          let tt_text := fetch_timetable_text ttProv u.grade u.classNum target now
          (db, kakao_simple_text
            (toString u.grade ++ "학년 " ++ toString u.classNum ++ "반 " ++
              strftimeMDa target ++ " 시간표\n" ++ tt_text) (some qr_default))
        else if hasTok "급식" t then
          let target := (parse_korean_date t now).getD now
          let meal_text := fetch_meal_text (mealProv (strftimeYM target)) target
          (db, kakao_simple_text (strftimeYMD target ++ " 급식\n" ++ meal_text) (some qr_default))
        else if hasTok "학사" t || hasTok "일정" t then
          if hasTok "이번 주" t then
            let wr := format_week_range now
            let items := fetch_calendar_items wr.1 wr.2
            if items.isEmpty then
              (db, kakao_simple_text "이번 주 학사일정이 없습니다." (some qr_default))
            else (db, kakao_simple_text ("이번 주 학사일정\n" ++ joinNL items) (some qr_default))
          else
            let month_start : Date := ⟨now.year, now.month, 1⟩
            let next_month : Date := { addDays { month_start with day := 28 } 4 with day := 1 }
            let month_end := subDays next_month 1
            let items := fetch_calendar_items month_start month_end
            if items.isEmpty then
              (db, kakao_simple_text "이번 달 학사일정이 없습니다." (some qr_default))
            else (db, kakao_simple_text ("이번 달 학사일정\n" ++ joinNL items) (some qr_default))
        else
          (db, kakao_simple_text
            "무엇을 도와드릴까요?\n가능한 명령: `오늘 시간표`, `내일 시간표`, `오늘 급식`, `9월3일 급식`, `이번 주 학사일정`, `이번 달 학사일정`, `학년/반 변경`"
            (some qr_default))

/-- One inbound request with its ambient clock and providers. -/
structure BotReq where
  uid : String
  text : String
  now : Date
  tt : Int → Except String TTData
  meal : String → Except String (List (List MealCell))

/-- Run a sequence of requests against the registry. -/
def runBot : List BotReq → Registry → Registry
  | [], db => db
  | r :: rs, db => runBot rs (webhook r.tt r.meal db r.uid r.text r.now).1

/-- Every profile in the registry has nonnegative grade and class. -/
def InvReg (db : Registry) : Prop :=
  ∀ e ∈ db, 0 ≤ e.2.grade ∧ 0 ≤ e.2.classNum

/-- The rendered text of a schedule row (the entry `calRowEntry` produces
whenever the row's date parses and lies in range). -/
def calRowText (row : String × String) : String :=
  match parseYMDTable row.1 with
  | none => ""
  | some d =>
    if stripStr row.2 ≠ "" then strftimeMDa d ++ " - " ++ stripStr row.2
    else strftimeMDa d ++ " - "

/-- Adjacent-pairs check used to certify sortedness of the rendered schedule. -/
def chainB (rel : String → String → Bool) : List String → Bool
  | [] => true
  | [_] => true
  | a :: b :: rest => rel a b && chainB rel (b :: rest)

/- ===== Helper lemmas ===== -/

theorem isValidDate_iff (d : Date) :
    isValidDate d = true ↔
      1 ≤ d.year ∧ 1 ≤ d.month ∧ d.month ≤ 12 ∧ 1 ≤ d.day ∧
        d.day ≤ daysInMonth d.year d.month := by
  simp [isValidDate, Bool.and_eq_true, decide_eq_true_eq, and_assoc]

/- ===== C9: shape of kakao_simple_text ===== -/

/-- C9: for every text and quick-replies argument, `kakao_simple_text` returns
version "2.0" with exactly one `simpleText` output carrying the text unchanged,
and the `quickReplies` key is present iff a non-empty list was passed, in which
case it is exactly that list. -/
theorem C9_kakao_simple_text_shape (t : String) (qr : Option (List QuickReply)) :
    (kakao_simple_text t qr).version = "2.0" ∧
    (kakao_simple_text t qr).outputs = [KOutput.simpleText t] ∧
    ((kakao_simple_text t qr).quickReplies.isSome ↔ ∃ l, qr = some l ∧ l ≠ []) ∧
    (∀ l, qr = some l → l ≠ [] → (kakao_simple_text t qr).quickReplies = some l) := by
  refine ⟨rfl, rfl, ?_, ?_⟩
  · rcases qr with _ | l
    · simp [kakao_simple_text]
    · rcases l with _ | ⟨q, qs⟩ <;> simp [kakao_simple_text]
  · intro l hl hne
    subst hl
    rcases l with _ | ⟨q, qs⟩
    · exact absurd rfl hne
    · rfl

/-- C9 witness: a concrete non-empty quick-replies list is passed through. -/
theorem C9_witness :
    (some qr_default = some qr_default) ∧ qr_default ≠ [] ∧
    (kakao_simple_text "안녕" (some qr_default)).quickReplies = some qr_default :=
  ⟨rfl, by decide,
   (C9_kakao_simple_text_shape "안녕" (some qr_default)).2.2.2 qr_default rfl (by decide)⟩

/- ===== C6: weekend timetable ===== -/

/-- C6: for every Saturday or Sunday target date, the timetable lookup returns
the fixed weekend text, and the result does not depend on the provider at all
(the provider is never consulted). -/
theorem C6_weekend_timetable (provider : Int → Except String TTData) (g c : Int)
    (target today : Date) (h : weekday target = 5 ∨ weekday target = 6) :
    fetch_timetable_text provider g c target today = "주말에는 시간표가 없습니다." ∧
    ∀ provider₂, fetch_timetable_text provider g c target today =
      fetch_timetable_text provider₂ g c target today := by
  have h5 : 5 ≤ weekday target := by rcases h with h | h <;> omega
  constructor
  · unfold fetch_timetable_text
    rw [if_pos h5]
  · intro p₂
    unfold fetch_timetable_text
    rw [if_pos h5, if_pos h5]

/-- C6 witness: 2025-10-11 is a Saturday, and the weekend text is returned for
an always-failing provider. -/
theorem C6_witness :
    (weekday ⟨2025, 10, 11⟩ = 5 ∨ weekday ⟨2025, 10, 11⟩ = 6) ∧
    fetch_timetable_text (fun _ => Except.error "boom") 2 8 ⟨2025, 10, 11⟩ ⟨2025, 10, 12⟩ =
      "주말에는 시간표가 없습니다." :=
  ⟨Or.inl (by decide),
   (C6_weekend_timetable (fun _ => Except.error "boom") 2 8 ⟨2025, 10, 11⟩ ⟨2025, 10, 12⟩
     (Or.inl (by decide))).1⟩

/- ===== C4: provider failure containment ===== -/

theorem payloadFields_kakao (s s' : String) (q : Option (List QuickReply)) :
    payloadFields (kakao_simple_text s q) = payloadFields (kakao_simple_text s' q) := by
  rcases q with _ | ⟨_ | ⟨a, l⟩⟩ <;> rfl

seal ACADEMIC_SCHEDULE fetch_calendar_items parse_korean_date fetch_timetable_text fetch_meal_text stripStr hasTok startsWithStr reMatchGradeClass fullmatchTwoInts get_user strftimeMDa strftimeYMD strftimeYM in
set_option maxHeartbeats 1000000 in
theorem payloadFields_webhook_provider_free
    (tt₁ tt₂ : Int → Except String TTData)
    (m₁ m₂ : String → Except String (List (List MealCell)))
    (db : Registry) (uid t : String) (now : Date) :
    payloadFields ((webhook tt₁ m₁ db uid t now).2) =
      payloadFields ((webhook tt₂ m₂ db uid t now).2) := by
  unfold webhook
  dsimp only
  repeat' split
  all_goals exact payloadFields_kakao _ _ _

/-- C4: an exception raised inside the timetable provider (reached on weekdays)
or the meal provider is converted into a normal text string embedding the
failure description; replies built by the handler all share the same payload
fields, and in particular the handler's reply fields never depend on the
providers at all — no provider error reaches the transport layer as a fault. -/
theorem C4_provider_failure_contained :
    (∀ (e : String) (g c : Int) (target today : Date), weekday target < 5 →
       fetch_timetable_text (fun _ => Except.error e) g c target today =
         "시간표 불러오기 실패: " ++ e) ∧
    (∀ (e : String) (target : Date),
       fetch_meal_text (Except.error e) target = "급식 불러오기 실패: " ++ e) ∧
    (∀ s s' : String, payloadFields (kakao_simple_text s (some qr_default)) =
       payloadFields (kakao_simple_text s' (some qr_default))) ∧
    (∀ (tt₁ tt₂ : Int → Except String TTData)
       (m₁ m₂ : String → Except String (List (List MealCell))) db uid t now,
       payloadFields ((webhook tt₁ m₁ db uid t now).2) =
         payloadFields ((webhook tt₂ m₂ db uid t now).2)) := by
  refine ⟨?_, ?_, ?_, ?_⟩
  · intro e g c target today h
    unfold fetch_timetable_text
    rw [if_neg (by omega)]
  · intro e target
    rfl
  · intro s s'
    exact payloadFields_kakao _ _ _
  · intro tt₁ tt₂ m₁ m₂ db uid t now
    exact payloadFields_webhook_provider_free tt₁ tt₂ m₁ m₂ db uid t now

/-- C4 witness: a Monday target with an always-raising provider yields the
failure strings, and the reply fields agree between an error-provider request
and a success-provider request. -/
theorem C4_witness :
    weekday ⟨2025, 10, 13⟩ < 5 ∧
    fetch_timetable_text (fun _ => Except.error "boom") 2 8 ⟨2025, 10, 13⟩ ⟨2025, 10, 12⟩ =
      "시간표 불러오기 실패: boom" ∧
    fetch_meal_text (Except.error "boom") ⟨2025, 10, 13⟩ = "급식 불러오기 실패: boom" ∧
    payloadFields ((webhook (fun _ => Except.error "boom") (fun _ => Except.error "boom")
        [("u", ⟨2, 8⟩)] "u" "오늘 급식" ⟨2025, 10, 12⟩).2) =
      payloadFields ((webhook (fun _ => Except.ok ⟨[], 0, 1, 2, 3, 4⟩) (fun _ => Except.ok [])
        [("u", ⟨2, 8⟩)] "u" "오늘 급식" ⟨2025, 10, 12⟩).2) :=
  ⟨by decide,
   C4_provider_failure_contained.1 "boom" 2 8 ⟨2025, 10, 13⟩ ⟨2025, 10, 12⟩ (by decide),
   C4_provider_failure_contained.2.1 "boom" ⟨2025, 10, 13⟩,
   C4_provider_failure_contained.2.2.2 _ _ _ _ _ _ _ _⟩

/- ===== C8: invalid Korean month/day resolves to absent ===== -/

/-- C8: whenever the Korean "<month> 월 <day> 일" pattern is the rule that
fires (no "오늘"/"내일" token) and the matched (month, day) is not a valid
calendar date in the reference year, `parse_korean_date` returns `none` — the
`ValueError` of the date constructor is caught, not propagated (the embedding
is total: `none` is the caught-exception result). -/
theorem C8_invalid_korean_date_absent (t : String) (base : Date) (m d : Nat)
    (h1 : hasTok "오늘" (stripStr t) = false) (h2 : hasTok "내일" (stripStr t) = false)
    (h3 : scanKorean (stripStr t).data = some (m, d))
    (h4 : isValidDate ⟨base.year, m, d⟩ = false) :
    parse_korean_date t base = none := by
  simp [parse_korean_date, mkDate, h1, h2, h3, h4]

/-- C8 witness: `"9월 31일"` — September has 30 days, so resolution is absent. -/
theorem C8_witness :
    hasTok "오늘" (stripStr "9월 31일") = false ∧
    hasTok "내일" (stripStr "9월 31일") = false ∧
    scanKorean (stripStr "9월 31일").data = some (9, 31) ∧
    isValidDate ⟨(⟨2025, 10, 12⟩ : Date).year, 9, 31⟩ = false ∧
    parse_korean_date "9월 31일" ⟨2025, 10, 12⟩ = none :=
  ⟨by decide, by decide, by decide, by decide,
   C8_invalid_korean_date_absent "9월 31일" ⟨2025, 10, 12⟩ 9 31
     (by decide) (by decide) (by decide) (by decide)⟩

/- ===== C2: four-digit-year texts ===== -/

/-- C2 counterexample: `"2025-09-03"` matches the three-number pattern with a
4-digit year and contains neither "오늘" nor "내일" nor the Korean pattern, yet
with reference year 2024 `parse_korean_date` returns 2024-09-03, not
2025-09-03: the earlier-checked two-number rule captures "09-03" first. -/
theorem C2_counterexample :
    hasTok "오늘" "2025-09-03" = false ∧ hasTok "내일" "2025-09-03" = false ∧
    scanKorean "2025-09-03".data = none ∧
    scanYMD none "2025-09-03".data = some (2025, 9, 3) ∧
    parse_korean_date "2025-09-03" ⟨2024, 1, 1⟩ = some ⟨2024, 9, 3⟩ ∧
    some (⟨2024, 9, 3⟩ : Date) ≠ some (⟨2025, 9, 3⟩ : Date) := by
  refine ⟨by decide, by decide, by decide, by decide, by decide, by decide⟩

/-- C2 amended: for the three-number text `"2025-09-03"`, the earlier-checked
two-number month/day rule fires on the "09-03" substring, so for every
(Python-representable) reference date the result is September 3 of the
reference date's year — the written 4-digit year is ignored. -/
theorem C2_amended_uses_reference_year (base : Date)
    (h1 : 1 ≤ base.year) (h2 : base.year ≤ 9999) :
    parse_korean_date "2025-09-03" base = some ⟨base.year, 9, 3⟩ := by
  have hstep : parse_korean_date "2025-09-03" base = mkDate base.year 9 3 := rfl
  have hdim : daysInMonth base.year 9 = 30 := rfl
  have hv1 : isValidDate ⟨base.year, 9, 3⟩ = true := by
    rw [isValidDate_iff]
    exact ⟨h1, by norm_num, by norm_num, by norm_num, by rw [hdim]; norm_num⟩
  rw [hstep]
  unfold mkDate
  rw [if_pos (by rw [hv1]; simpa using h2)]

/-- C2 amended witness: reference year 2026 yields 2026-09-03. -/
theorem C2_amended_witness :
    1 ≤ (⟨2026, 1, 15⟩ : Date).year ∧ (⟨2026, 1, 15⟩ : Date).year ≤ 9999 ∧
    parse_korean_date "2025-09-03" ⟨2026, 1, 15⟩ = some ⟨2026, 9, 3⟩ :=
  ⟨by decide, by decide, C2_amended_uses_reference_year ⟨2026, 1, 15⟩ (by decide) (by decide)⟩

/- ===== Registry lemmas ===== -/

theorem get_user_mem {uid : String} {v : Profile} :
    ∀ {l : Registry}, get_user l uid = some v → (uid, v) ∈ l := by
  intro l h
  induction l with
  | nil => simp [get_user] at h
  | cons a l ih =>
    rcases a with ⟨a1, a2⟩
    by_cases hk : a1 = uid
    · subst hk
      rw [get_user, if_pos rfl] at h
      simp at h
      simp [h]
    · rw [get_user, if_neg hk] at h
      exact List.mem_cons_of_mem _ (ih h)

/-- Read-your-writes for the registry. -/
theorem get_user_set_user (db : Registry) (uid : String) (g c : Int) :
    get_user (set_user db uid g c) uid = some ⟨g, c⟩ := by
  rw [set_user, get_user, if_pos rfl]

/- ===== C1: the "학년변경 9 99" utterance ===== -/

/-- C1 counterexample: for a registered id, the utterance "학년변경 9 99"
matches no registration pattern of the handler — the registry is left
unchanged (still grade 1, class 1) and the reply is the fallback help text,
not a registration confirmation. -/
theorem C1_counterexample :
    get_user [("u", (⟨1, 1⟩ : Profile))] "u" = some ⟨1, 1⟩ ∧
    webhook (fun _ => Except.error "e") (fun _ => Except.error "e")
        [("u", ⟨1, 1⟩)] "u" "학년변경 9 99" ⟨2025, 10, 12⟩ =
      ([("u", ⟨1, 1⟩)],
       kakao_simple_text
         "무엇을 도와드릴까요?\n가능한 명령: `오늘 시간표`, `내일 시간표`, `오늘 급식`, `9월3일 급식`, `이번 주 학사일정`, `이번 달 학사일정`, `학년/반 변경`"
         (some qr_default)) ∧
    get_user [("u", (⟨1, 1⟩ : Profile))] "u" ≠ some ⟨9, 99⟩ ∧
    kakao_simple_text
        "무엇을 도와드릴까요?\n가능한 명령: `오늘 시간표`, `내일 시간표`, `오늘 급식`, `9월3일 급식`, `이번 주 학사일정`, `이번 달 학사일정`, `학년/반 변경`"
        (some qr_default) ≠
      kakao_simple_text "학년/반을 9학년 99반으로 설정했습니다." (some qr_default) := by
  refine ⟨by decide, by decide, by decide, by decide⟩

/-- C1 amended: for a registered id, "학년변경 9 99" leaves the registry
unchanged and yields the fallback help reply; the unconditional overwrite the
spec describes belongs to the bare two-integer utterance "9 99", which upserts
grade 9 / class 99 (visible to an immediate get) and returns the
registration-confirmation reply. -/
theorem C1_amended_change_utterance (tt : Int → Except String TTData)
    (meal : String → Except String (List (List MealCell)))
    (db : Registry) (uid : String) (prof : Profile) (now : Date)
    (hu : uid ≠ "") (hreg : get_user db uid = some prof) :
    webhook tt meal db uid "9 99" now =
      (set_user db uid 9 99,
       kakao_simple_text "학년/반을 9학년 99반으로 설정했습니다." (some qr_default)) ∧
    get_user (set_user db uid 9 99) uid = some ⟨9, 99⟩ ∧
    webhook tt meal db uid "학년변경 9 99" now =
      (db, kakao_simple_text
        "무엇을 도와드릴까요?\n가능한 명령: `오늘 시간표`, `내일 시간표`, `오늘 급식`, `9월3일 급식`, `이번 주 학사일정`, `이번 달 학사일정`, `학년/반 변경`"
        (some qr_default)) := by
  refine ⟨?_, get_user_set_user db uid 9 99, ?_⟩
  · unfold webhook
    dsimp only
    rw [if_neg hu]
    rfl
  · unfold webhook
    dsimp only
    rw [if_neg hu, hreg]
    rfl

/-- C1 amended witness at a concrete registered profile. -/
theorem C1_amended_witness :
    ("u" : String) ≠ "" ∧
    get_user [("u", (⟨1, 1⟩ : Profile))] "u" = some ⟨1, 1⟩ ∧
    webhook (fun _ => Except.error "e") (fun _ => Except.error "e")
        [("u", ⟨1, 1⟩)] "u" "9 99" ⟨2025, 10, 12⟩ =
      (set_user [("u", ⟨1, 1⟩)] "u" 9 99,
       kakao_simple_text "학년/반을 9학년 99반으로 설정했습니다." (some qr_default)) :=
  ⟨by decide, by decide,
   (C1_amended_change_utterance (fun _ => Except.error "e") (fun _ => Except.error "e")
     [("u", ⟨1, 1⟩)] "u" ⟨1, 1⟩ ⟨2025, 10, 12⟩ (by decide) (by decide)).1⟩

/- ===== C3: no positivity validation ===== -/

/-- C3 counterexample: the registration utterance "0 0" parses to the
non-positive pair (0, 0), yet the handler mutates the registry (storing
grade 0, class 0) and returns the registration confirmation, not a usage
hint; the stored profile violates grade ≥ 1. -/
theorem C3_counterexample :
    webhook (fun _ => Except.error "e") (fun _ => Except.error "e") [] "u" "0 0" ⟨2025, 10, 12⟩ =
      ([("u", ⟨0, 0⟩)], kakao_simple_text "학년/반을 0학년 0반으로 설정했습니다." (some qr_default)) ∧
    get_user [("u", (⟨0, 0⟩ : Profile))] "u" = some ⟨0, 0⟩ ∧
    ¬(1 ≤ (⟨0, 0⟩ : Profile).grade) := by
  refine ⟨by decide, by decide, by decide⟩

theorem set_user_inv {db : Registry} {uid : String} {g c : Int}
    (h : InvReg db) (hg : 0 ≤ g) (hc : 0 ≤ c) : InvReg (set_user db uid g c) := by
  intro e he
  rcases List.mem_cons.mp he with he | he
  · subst he
    exact ⟨hg, hc⟩
  · exact h e (List.mem_of_mem_filter he)

seal ACADEMIC_SCHEDULE fetch_calendar_items parse_korean_date fetch_timetable_text fetch_meal_text stripStr hasTok startsWithStr reMatchGradeClass fullmatchTwoInts get_user strftimeMDa strftimeYMD strftimeYM in
set_option maxHeartbeats 1000000 in
theorem webhook_registry_cases (tt : Int → Except String TTData)
    (meal : String → Except String (List (List MealCell)))
    (db : Registry) (uid t : String) (now : Date) :
    (webhook tt meal db uid t now).1 = db ∨
      ∃ g c : Nat, (webhook tt meal db uid t now).1 = set_user db uid (g : Int) (c : Int) := by
  unfold webhook
  dsimp only
  repeat' split
  all_goals first
    | exact Or.inl rfl
    | exact Or.inr ⟨_, _, rfl⟩

theorem runBot_inv : ∀ (reqs : List BotReq) (db : Registry), InvReg db → InvReg (runBot reqs db) := by
  intro reqs
  induction reqs with
  | nil => intro db h; exact h
  | cons r rs ih =>
    intro db h
    rw [runBot]
    apply ih
    rcases webhook_registry_cases r.tt r.meal db r.uid r.text r.now with hc | ⟨g, c, hc⟩
    · rw [hc]; exact h
    · rw [hc]
      exact set_user_inv h (Int.natCast_nonneg g) (Int.natCast_nonneg c)

/-- C3 amended: the handler performs no positivity validation — a two-integer
utterance such as "0 0" is upserted as-is with a confirmation reply (see the
counterexample).  The invariant that does hold is weaker: after any sequence
of requests starting from an empty registry, every stored profile has
nonnegative (digit-parsed) grade and classNumber. -/
theorem C3_amended_nonneg_invariant (reqs : List BotReq) (uid : String) (p : Profile)
    (h : get_user (runBot reqs []) uid = some p) :
    0 ≤ p.grade ∧ 0 ≤ p.classNum := by
  have hmem := get_user_mem h
  exact runBot_inv reqs [] (by intro e he; simp at he) (uid, p) hmem

/-- C3 amended witness: registering "3 5" stores a (nonnegative) profile. -/
theorem C3_amended_witness :
    get_user (runBot [⟨"u", "3 5", ⟨2025, 10, 12⟩,
        fun _ => Except.error "e", fun _ => Except.error "e"⟩] []) "u" =
      some ⟨3, 5⟩ ∧
    (0 ≤ (⟨3, 5⟩ : Profile).grade ∧ 0 ≤ (⟨3, 5⟩ : Profile).classNum) :=
  ⟨by decide,
   C3_amended_nonneg_invariant [⟨"u", "3 5", ⟨2025, 10, 12⟩,
     fun _ => Except.error "e", fun _ => Except.error "e"⟩] "u" ⟨3, 5⟩ (by decide)⟩

theorem reMatch_head_digit {l : List Char} {p : Nat × Nat}
    (h : reMatchGradeClass l = some p) :
    ∃ ch r, l = ch :: r ∧ isDigitCh ch = true := by
  cases l with
  | nil => simp [reMatchGradeClass] at h
  | cons ch r =>
    by_cases hc : isDigitCh ch = true
    · exact ⟨ch, r, rfl, hc⟩
    · rw [Bool.not_eq_true] at hc
      simp [reMatchGradeClass, List.takeWhile_cons, hc] at h

theorem fullmatch_head_digit {l : List Char} {p : Nat × Nat}
    (h : fullmatchTwoInts l = some p) :
    ∃ ch r, l = ch :: r ∧ isDigitCh ch = true := by
  cases l with
  | nil => simp [fullmatchTwoInts] at h
  | cons ch r =>
    by_cases hc : isDigitCh ch = true
    · exact ⟨ch, r, rfl, hc⟩
    · rw [Bool.not_eq_true] at hc
      simp [fullmatchTwoInts, List.takeWhile_cons, hc] at h

theorem fullmatch_chars {l : List Char} {p : Nat × Nat}
    (h : fullmatchTwoInts l = some p) :
    ∀ x ∈ l, isDigitCh x = true ∨ isSpaceCh x = true := by
  unfold fullmatchTwoInts at h
  dsimp only at h
  split at h
  · exact absurd h (by simp)
  split at h
  · exact absurd h (by simp)
  split at h
  · exact absurd h (by simp)
  split at h
  · exact absurd h (by simp)
  rename_i h1 h2 h3 h4
  intro x hx
  rw [← List.takeWhile_append_dropWhile (p := isDigitCh) (l := l)] at hx
  rcases List.mem_append.mp hx with hx | hx
  · exact Or.inl (List.mem_takeWhile_imp hx)
  · rw [← List.takeWhile_append_dropWhile (p := isSpaceCh) (l := l.dropWhile isDigitCh)] at hx
    rcases List.mem_append.mp hx with hx | hx
    · exact Or.inr (List.mem_takeWhile_imp hx)
    · rw [← List.takeWhile_append_dropWhile (p := isDigitCh)
        (l := (l.dropWhile isDigitCh).dropWhile isSpaceCh)] at hx
      rcases List.mem_append.mp hx with hx | hx
      · exact Or.inl (List.mem_takeWhile_imp hx)
      · rw [not_ne_iff.mp h4] at hx
        simp at hx

theorem reMatch_has_hak {l : List Char} {p : Nat × Nat}
    (h : reMatchGradeClass l = some p) : '학' ∈ l := by
  unfold reMatchGradeClass at h
  dsimp only at h
  split at h
  · exact absurd h (by simp)
  split at h
  case _ r2 heq =>
    have hmem : '학' ∈ (l.dropWhile isDigitCh).dropWhile isSpaceCh := by
      rw [heq]; exact List.mem_cons_self _ _
    have h1 : '학' ∈ l.dropWhile isDigitCh :=
      (List.dropWhile_sublist _).mem hmem
    exact (List.dropWhile_sublist _).mem h1
  · exact absurd h (by simp)

theorem reMatch_none_of_fullmatch {l : List Char} {p : Nat × Nat}
    (h : fullmatchTwoInts l = some p) : reMatchGradeClass l = none := by
  cases hm : reMatchGradeClass l with
  | none => rfl
  | some q =>
    exfalso
    rcases fullmatch_chars h _ (reMatch_has_hak hm) with hd | hs
    · exact absurd hd (by decide)
    · exact absurd hs (by decide)

theorem startsWith_change_false {s : String} {ch : Char} {r : List Char}
    (hdata : s.data = ch :: r) (hch : isDigitCh ch = true) :
    startsWithStr s "학년/반 변경" = false := by
  unfold startsWithStr
  rw [hdata]
  have : ("학년/반 변경".data) = '학' :: "년/반 변경".data := rfl
  rw [this]
  simp only [List.isPrefixOf]
  have hne : ('학' == ch) = false := by
    cases hbe : '학' == ch
    · rfl
    · exfalso
      have : '학' = ch := eq_of_beq hbe
      rw [← this] at hch
      exact absurd hch (by decide)
  rw [hne]
  rfl

/-- C5: every utterance matching a registration pattern — a text beginning
with "<N>학년 <N>반" (the anchored `re.match`) or a text that is exactly two
whitespace-separated integers — is registered: the profile is upserted and the
registration confirmation returned, for every registry state (with or without
an existing profile) and hence even when the text also contains a content
keyword such as "시간표". -/
theorem C5_registration_precedence (tt : Int → Except String TTData)
    (meal : String → Except String (List (List MealCell)))
    (db : Registry) (uid t : String) (now : Date) (g c : Nat)
    (hu : uid ≠ "")
    (hm : reMatchGradeClass (stripStr t).data = some (g, c) ∨
          fullmatchTwoInts (stripStr t).data = some (g, c)) :
    webhook tt meal db uid t now =
      (set_user db uid (g : Int) (c : Int),
       kakao_simple_text ("학년/반을 " ++ toString g ++ "학년 " ++ toString c ++ "반으로 설정했습니다.")
         (some qr_default)) := by
  have hhead : ∃ ch r, (stripStr t).data = ch :: r ∧ isDigitCh ch = true := by
    rcases hm with hm | hm
    · exact reMatch_head_digit hm
    · exact fullmatch_head_digit hm
  obtain ⟨ch, r, hdata, hch⟩ := hhead
  have hsw : startsWithStr (stripStr t) "학년/반 변경" = false :=
    startsWith_change_false hdata hch
  unfold webhook
  dsimp only
  rw [if_neg hu, hsw]
  simp only [Bool.false_eq_true, if_false]
  rcases hm with hm | hm
  · rw [hm]
  · rw [reMatch_none_of_fullmatch hm, hm]

/-- C5 witness: "1학년 2반 시간표" registers (despite the "시간표" keyword)
even when no profile exists. -/
theorem C5_witness :
    ("u" : String) ≠ "" ∧
    reMatchGradeClass (stripStr "1학년 2반 시간표").data = some (1, 2) ∧
    webhook (fun _ => Except.error "e") (fun _ => Except.error "e")
        [] "u" "1학년 2반 시간표" ⟨2025, 10, 12⟩ =
      (set_user [] "u" 1 2,
       kakao_simple_text "학년/반을 1학년 2반으로 설정했습니다." (some qr_default)) :=
  ⟨by decide, by decide,
   C5_registration_precedence (fun _ => Except.error "e") (fun _ => Except.error "e")
     [] "u" "1학년 2반 시간표" ⟨2025, 10, 12⟩ 1 2 (by decide) (Or.inl (by decide))⟩

/- ===== C10: fetch_calendar_items ===== -/

theorem chain'_of_chainB {rel : String → String → Bool} :
    ∀ {l : List String}, chainB rel l = true → List.Chain' (fun a b => rel a b = true) l := by
  intro l h
  induction l with
  | nil => exact List.chain'_nil
  | cons a l ih =>
    cases l with
    | nil => exact List.chain'_singleton _
    | cons b rest =>
      rw [chainB] at h
      simp only [Bool.and_eq_true] at h
      exact List.Chain'.cons h.1 (ih h.2)

/-- The fully rendered schedule is already in ascending (month, day) order, so
the stable sort in `fetch_calendar_items` is the identity on any filtered
selection of it. -/
theorem sched_sorted :
    List.Pairwise (fun a b => keyLE (calKey a) (calKey b) = true)
      (ACADEMIC_SCHEDULE.map calRowText) := by
  rw [← List.chain'_iff_pairwise]
  exact chain'_of_chainB (by decide)

theorem calRowEntry_eq_some {start endD : Date} {r : String × String} {b : String}
    (h : calRowEntry start endD r = some b) : b = calRowText r := by
  unfold calRowEntry at h
  unfold calRowText
  cases hp : parseYMDTable r.1 with
  | none => rw [hp] at h; exact absurd h (by simp)
  | some d =>
    rw [hp] at h
    dsimp only at h ⊢
    split at h
    · split at h
      case _ hc =>
        rw [if_pos hc]
        injection h with h
        exact h.symm
      case _ hc =>
        rw [if_neg hc]
        injection h with h
        exact h.symm
    · exact absurd h (by simp)

theorem filterMap_sublist_map {α β : Type} (f : α → Option β) (g : α → β)
    (h : ∀ a b, f a = some b → b = g a) :
    ∀ l : List α, (l.filterMap f).Sublist (l.map g) := by
  intro l
  induction l with
  | nil => simp
  | cons a l ih =>
    cases hfa : f a with
    | none =>
      rw [List.filterMap_cons_none hfa, List.map_cons]
      exact ih.cons _
    | some b =>
      rw [List.filterMap_cons_some hfa, List.map_cons, h a b hfa]
      exact ih.cons₂ _

theorem sortByKey_eq_self : ∀ {l : List String},
    List.Pairwise (fun a b => keyLE (calKey a) (calKey b) = true) l → sortByKey l = l := by
  intro l h
  induction l with
  | nil => rfl
  | cons x xs ih =>
    rw [sortByKey, ih (List.Pairwise.of_cons h)]
    cases xs with
    | nil => rfl
    | cons y ys =>
      rw [insSorted, if_pos ((List.pairwise_cons.mp h).1 y (List.mem_cons_self _ _))]

/-- C10: `fetch_calendar_items` returns exactly one rendered entry per
schedule row whose (parsed) date lies in `[start, end]` — including
empty-event rows, rendered as "MM/DD(Day) - " with no title — in ascending
date order, and returns `[]` exactly when no schedule date lies in range. -/
theorem C10_fetch_calendar_items (start endD : Date) :
    fetch_calendar_items start endD = ACADEMIC_SCHEDULE.filterMap (calRowEntry start endD) ∧
    List.Pairwise (fun a b => keyLE (calKey a) (calKey b) = true)
      (fetch_calendar_items start endD) ∧
    (fetch_calendar_items start endD = [] ↔
       ∀ r ∈ ACADEMIC_SCHEDULE, ∀ d, parseYMDTable r.1 = some d →
         ¬(dateLE start d ∧ dateLE d endD)) ∧
    (∀ r ∈ ACADEMIC_SCHEDULE, ∀ d, parseYMDTable r.1 = some d →
       dateLE start d → dateLE d endD → stripStr r.2 = "" →
       (strftimeMDa d ++ " - ") ∈ fetch_calendar_items start endD) := by
  have hpair : List.Pairwise (fun a b => keyLE (calKey a) (calKey b) = true)
      (ACADEMIC_SCHEDULE.filterMap (calRowEntry start endD)) :=
    sched_sorted.sublist
      (filterMap_sublist_map _ _ (fun a b hab => calRowEntry_eq_some hab) ACADEMIC_SCHEDULE)
  have hmain : fetch_calendar_items start endD =
      ACADEMIC_SCHEDULE.filterMap (calRowEntry start endD) := by
    unfold fetch_calendar_items
    dsimp only
    split
    case _ hc => exact (List.isEmpty_iff.mp hc).symm
    case _ hc => exact sortByKey_eq_self hpair
  refine ⟨hmain, hmain ▸ hpair, ?_, ?_⟩
  · rw [hmain, List.filterMap_eq_nil_iff]
    constructor
    · intro hall r hr d hd hrange
      have := hall r hr
      rw [calRowEntry, hd] at this
      dsimp only at this
      rw [if_pos hrange] at this
      exact absurd this (by simp)
    · intro hall r hr
      rw [calRowEntry]
      cases hp : parseYMDTable r.1 with
      | none => rfl
      | some d =>
        dsimp only
        rw [if_neg (hall r hr d hp)]
  · intro r hr d hd h1 h2 htitle
    rw [hmain]
    refine List.mem_filterMap.mpr ⟨r, hr, ?_⟩
    rw [calRowEntry, hd]
    dsimp only
    rw [if_pos ⟨h1, h2⟩, htitle]
    rfl

/-- C10 witness: over 2025-09-01 … 2025-09-02 the list has one entry per row,
with the empty 09/02 event rendered with a bare " - " tail. -/
theorem C10_witness :
    ("2025-09-02", "") ∈ ACADEMIC_SCHEDULE ∧
    (strftimeMDa ⟨2025, 9, 2⟩ ++ " - ") ∈ fetch_calendar_items ⟨2025, 9, 1⟩ ⟨2025, 9, 2⟩ ∧
    fetch_calendar_items ⟨2025, 9, 1⟩ ⟨2025, 9, 2⟩ =
      ["09/01(Mon) - 학부모 상담주간(3)", "09/02(Tue) - "] :=
  ⟨by decide,
   (C10_fetch_calendar_items ⟨2025, 9, 1⟩ ⟨2025, 9, 2⟩).2.2.2 ("2025-09-02", "")
     (by decide) ⟨2025, 9, 2⟩ (by decide) (by decide) (by decide) (by decide),
   by decide⟩

theorem isLeap_spec (y : Nat) : isLeap y = true ↔ ((y % 4 = 0 ∧ y % 100 ≠ 0) ∨ y % 400 = 0) := by
  simp [isLeap, Bool.or_eq_true, Bool.and_eq_true, beq_iff_eq, bne_iff_ne]

theorem dim_bounds (y m : Nat) (h1 : 1 ≤ m) (h2 : m ≤ 12) :
    28 ≤ daysInMonth y m ∧ daysInMonth y m ≤ 31 := by
  interval_cases m <;> simp [daysInMonth] <;> split <;> omega

theorem dbm_step (y m : Nat) (h1 : 1 ≤ m) (h2 : m ≤ 11) :
    daysBeforeMonth y (m + 1) = daysBeforeMonth y m + daysInMonth y m := by
  interval_cases m <;>
    simp [daysBeforeMonth, daysInMonth] <;>
    by_cases hL : isLeap y = true <;> simp [hL] <;> omega

set_option maxHeartbeats 2000000 in
theorem ord_year_rollover (y : Nat) (hy : 1 ≤ y) :
    365 * y + y / 4 - y / 100 + y / 400 + 1 =
      365 * (y - 1) + (y - 1) / 4 - (y - 1) / 100 + (y - 1) / 400 +
        (334 + (if isLeap y then 1 else 0)) + 31 + 1 := by
  by_cases hL : isLeap y = true
  · rw [if_pos hL]
    rcases (isLeap_spec y).mp hL with ⟨ha, hb⟩ | hc
    · omega
    · have h100 : y % 100 = 0 := by omega
      have h4 : y % 4 = 0 := by omega
      omega
  · rw [if_neg hL]
    have h1 : ¬((y % 4 = 0 ∧ y % 100 ≠ 0) ∨ y % 400 = 0) := fun hh => hL ((isLeap_spec y).mpr hh)
    have h2 : y % 400 ≠ 0 := fun hc => h1 (Or.inr hc)
    by_cases h4 : y % 4 = 0
    · have h100 : y % 100 = 0 := by
        by_contra hcc
        exact h1 (Or.inl ⟨h4, hcc⟩)
      omega
    · omega

theorem valid_mk {y m dd : Nat} (hy : 1 ≤ y) (hm1 : 1 ≤ m) (hm2 : m ≤ 12)
    (hd1 : 1 ≤ dd) (hd2 : dd ≤ daysInMonth y m) :
    isValidDate ⟨y, m, dd⟩ = true := by
  rw [isValidDate_iff]
  exact ⟨hy, hm1, hm2, hd1, hd2⟩

theorem valid_parts {y m dd : Nat} (h : isValidDate ⟨y, m, dd⟩ = true) :
    1 ≤ y ∧ 1 ≤ m ∧ m ≤ 12 ∧ 1 ≤ dd ∧ dd ≤ daysInMonth y m := by
  rw [isValidDate_iff] at h
  exact h

theorem ord_mk (y m dd : Nat) :
    toOrd ⟨y, m, dd⟩ =
      365 * (y - 1) + (y - 1) / 4 - (y - 1) / 100 + (y - 1) / 400 +
        daysBeforeMonth y m + dd := rfl

theorem dbm_one (y : Nat) : daysBeforeMonth y 1 = 0 := by
  simp [daysBeforeMonth]

theorem dbm_twelve (y : Nat) :
    daysBeforeMonth y 12 = 334 + (if isLeap y then 1 else 0) := by
  simp [daysBeforeMonth]

theorem dim_twelve (y : Nat) : daysInMonth y 12 = 31 := rfl

theorem toOrd_succDay (d : Date) (hv : isValidDate d = true) :
    isValidDate (succDay d) = true ∧ toOrd (succDay d) = toOrd d + 1 := by
  obtain ⟨y, m, day⟩ := d
  obtain ⟨hy, hm1, hm2, hd1, hd2⟩ := valid_parts hv
  unfold succDay
  dsimp only
  by_cases hlt : day < daysInMonth y m
  · rw [if_pos hlt]
    refine ⟨valid_mk hy hm1 hm2 (by omega) (by omega), ?_⟩
    rw [ord_mk, ord_mk]
    omega
  · rw [if_neg hlt]
    have hde : day = daysInMonth y m := by omega
    by_cases hm12 : m < 12
    · rw [if_pos hm12]
      have hstep := dbm_step y m hm1 (by omega)
      have hb := dim_bounds y (m + 1) (by omega) (by omega)
      refine ⟨valid_mk hy (by omega) (by omega) (by omega) (by omega), ?_⟩
      rw [ord_mk, ord_mk]
      omega
    · rw [if_neg hm12]
      have hm12' : m = 12 := by omega
      subst hm12'
      rw [dim_twelve] at hde
      subst hde
      refine ⟨valid_mk (by omega) (by omega) (by omega) (by omega) ?_, ?_⟩
      · rw [show daysInMonth (y + 1) 1 = 31 from rfl]
        omega
      · rw [ord_mk, ord_mk, dbm_one, dbm_twelve]
        have hroll := ord_year_rollover y hy
        have hy1 : y + 1 - 1 = y := by omega
        rw [hy1]
        omega

theorem ord_111 : toOrd ⟨1, 1, 1⟩ = 1 := by decide

theorem succ_pred_of_valid (d : Date) (hv : isValidDate d = true) (hne : d ≠ ⟨1, 1, 1⟩) :
    isValidDate (predDay d) = true ∧ succDay (predDay d) = d := by
  obtain ⟨y, m, day⟩ := d
  obtain ⟨hy, hm1, hm2, hd1, hd2⟩ := valid_parts hv
  unfold predDay
  dsimp only
  by_cases h1 : 1 < day
  · rw [if_pos h1]
    refine ⟨valid_mk hy hm1 hm2 (by omega) (by omega), ?_⟩
    unfold succDay
    dsimp only
    rw [if_pos (by omega)]
    have : day - 1 + 1 = day := by omega
    rw [this]
  · rw [if_neg h1]
    have hday : day = 1 := by omega
    subst hday
    by_cases hm : 1 < m
    · rw [if_pos hm]
      have hb := dim_bounds y (m - 1) (by omega) (by omega)
      refine ⟨valid_mk hy (by omega) (by omega) (by omega) (by omega), ?_⟩
      unfold succDay
      dsimp only
      rw [if_neg (by omega), if_pos (by omega)]
      have : m - 1 + 1 = m := by omega
      rw [this]
    · rw [if_neg hm]
      have hm' : m = 1 := by omega
      subst hm'
      have hy2 : 2 ≤ y := by
        rcases Nat.lt_or_ge y 2 with hlt | hge
        · exfalso
          apply hne
          have : y = 1 := by omega
          rw [this]
        · exact hge
      refine ⟨valid_mk (by omega) (by omega) (by omega) (by omega)
        (by rw [dim_twelve]), ?_⟩
      unfold succDay
      dsimp only
      rw [if_neg (by rw [dim_twelve]; omega), if_neg (by omega)]
      have : y - 1 + 1 = y := by omega
      rw [this]

theorem dateLE_refl (d : Date) : dateLE d d := by
  unfold dateLE
  omega

theorem dateLE_trans {a b c : Date} (h1 : dateLE a b) (h2 : dateLE b c) : dateLE a c := by
  unfold dateLE at *
  omega

theorem dateLE_succDay (d : Date) (hv : isValidDate d = true) : dateLE d (succDay d) := by
  obtain ⟨y, m, day⟩ := d
  unfold succDay dateLE
  dsimp only
  by_cases h1 : day < daysInMonth y m
  · rw [if_pos h1]
    dsimp only
    omega
  · rw [if_neg h1]
    by_cases h2 : m < 12
    · rw [if_pos h2]
      dsimp only
      omega
    · rw [if_neg h2]
      dsimp only
      omega

theorem addDays_facts : ∀ (k : Nat) (d : Date), isValidDate d = true →
    isValidDate (addDays d k) = true ∧ toOrd (addDays d k) = toOrd d + k ∧
      dateLE d (addDays d k) := by
  intro k
  induction k with
  | zero => exact fun d hv => ⟨hv, rfl, dateLE_refl d⟩
  | succ k ih =>
    intro d hv
    rw [addDays]
    obtain ⟨hs1, hs2⟩ := toOrd_succDay d hv
    obtain ⟨ih1, ih2, ih3⟩ := ih (succDay d) hs1
    exact ⟨ih1, by omega, dateLE_trans (dateLE_succDay d hv) ih3⟩

theorem addDays_add (a b : Nat) : ∀ d : Date, addDays d (a + b) = addDays (addDays d a) b := by
  induction a with
  | zero =>
    intro d
    rw [Nat.zero_add]
    rfl
  | succ a ih =>
    intro d
    have h1 : a + 1 + b = (a + b) + 1 := by omega
    rw [h1, addDays, addDays, ← ih (succDay d)]

theorem toOrd_pos (d : Date) (hv : isValidDate d = true) : 1 ≤ toOrd d := by
  obtain ⟨y, m, day⟩ := d
  obtain ⟨hy, hm1, hm2, hd1, hd2⟩ := valid_parts hv
  rw [ord_mk]
  omega

theorem dateLE_predDay (d : Date) (hv : isValidDate d = true) (hne : d ≠ ⟨1, 1, 1⟩) :
    dateLE (predDay d) d := by
  obtain ⟨hp1, hp2⟩ := succ_pred_of_valid d hv hne
  have := dateLE_succDay (predDay d) hp1
  rw [hp2] at this
  exact this

theorem subDays_facts : ∀ (k : Nat) (d : Date), isValidDate d = true → k + 1 ≤ toOrd d →
    isValidDate (subDays d k) = true ∧ toOrd (subDays d k) = toOrd d - k ∧
      dateLE (subDays d k) d ∧ addDays (subDays d k) k = d := by
  intro k
  induction k with
  | zero => exact fun d hv _ => ⟨hv, by show toOrd d = toOrd d - 0; omega, dateLE_refl d, rfl⟩
  | succ k ih =>
    intro d hv hk
    obtain ⟨ih1, ih2, ih3, ih4⟩ := ih d hv (by omega)
    have hne : subDays d k ≠ ⟨1, 1, 1⟩ := by
      intro heq
      have : toOrd (subDays d k) = 1 := by rw [heq]; exact ord_111
      omega
    obtain ⟨hp1, hp2⟩ := succ_pred_of_valid (subDays d k) ih1 hne
    obtain ⟨_, hords⟩ := toOrd_succDay (predDay (subDays d k)) hp1
    rw [hp2] at hords
    rw [subDays]
    refine ⟨hp1, by omega, ?_, ?_⟩
    · exact dateLE_trans (dateLE_predDay (subDays d k) ih1 hne) ih3
    · rw [addDays, hp2, ih4]

theorem weekday_def (d : Date) : weekday d = (toOrd d + 6) % 7 := rfl

theorem weekday_lt7 (d : Date) : weekday d < 7 := by
  unfold weekday
  omega

theorem weekday_le_ord (d : Date) (hv : isValidDate d = true) : weekday d + 1 ≤ toOrd d := by
  have := toOrd_pos d hv
  unfold weekday
  omega

theorem format_week_range_spec (d : Date) (hv : isValidDate d = true) :
    weekday (format_week_range d).1 = 0 ∧
    weekday (format_week_range d).2 = 6 ∧
    dateLE (format_week_range d).1 d ∧ dateLE d (format_week_range d).2 ∧
    (format_week_range d).2 = addDays (format_week_range d).1 6 := by
  unfold format_week_range
  dsimp only
  have hw7 : weekday d < 7 := weekday_lt7 d
  have hword : weekday d + 1 ≤ toOrd d := weekday_le_ord d hv
  obtain ⟨hs1, hs2, hs3, hs4⟩ := subDays_facts (weekday d) d hv hword
  have hwdef : weekday d = (toOrd d + 6) % 7 := rfl
  have hstart : weekday (subDays d (weekday d)) = 0 := by
    rw [weekday_def, hs2]
    omega
  refine ⟨hstart, ?_, hs3, ?_, rfl⟩
  · obtain ⟨ha1, ha2, ha3⟩ := addDays_facts 6 (subDays d (weekday d)) hs1
    rw [weekday_def, ha2, hs2]
    omega
  · have hsplit : (6 : Nat) = weekday d + (6 - weekday d) := by omega
    rw [hsplit, addDays_add (weekday d) (6 - weekday d) (subDays d (weekday d)), hs4]
    exact (addDays_facts (6 - weekday d) d hv).2.2

set_option maxHeartbeats 1000000 in
theorem month_end_eq (y m : Nat) (hy : 1 ≤ y) (hm1 : 1 ≤ m) (hm2 : m ≤ 12) :
    subDays { addDays { (⟨y, m, 1⟩ : Date) with day := 28 } 4 with day := 1 } 1 =
      ⟨y, m, daysInMonth y m⟩ := by
  rw [subDays, subDays]
  interval_cases m <;> by_cases hL : isLeap y = true <;>
    simp [addDays, succDay, predDay, daysInMonth, hL]

/-- C7: for a registered user, a calendar utterance (keyword "학사"/"일정",
no earlier-matching pattern) containing "이번 주" replies from the calendar
items over exactly the Monday-Sunday week containing `now` (the range start
has weekday 0, the end is start+6 days with weekday 6, and `now` lies within);
without "이번 주" it replies from the items over exactly the first through
last day of `now`'s month; in either case a zero-item result yields the fixed
no-events message rather than a rendering of an empty list, and the registry
is untouched. -/
theorem C7_calendar_ranges (tt : Int → Except String TTData)
    (meal : String → Except String (List (List MealCell)))
    (db : Registry) (uid t : String) (u : Profile) (now : Date)
    (hu : uid ≠ "")
    (hreg : get_user db uid = some u)
    (h1 : startsWithStr (stripStr t) "학년/반 변경" = false)
    (h2 : reMatchGradeClass (stripStr t).data = none)
    (h3 : fullmatchTwoInts (stripStr t).data = none)
    (h4 : hasTok "시간표" (stripStr t) = false)
    (h5 : hasTok "급식" (stripStr t) = false)
    (h6 : hasTok "학사" (stripStr t) = true ∨ hasTok "일정" (stripStr t) = true)
    (hnow : isValidDate now = true) :
    (hasTok "이번 주" (stripStr t) = true →
       weekday (format_week_range now).1 = 0 ∧
       weekday (format_week_range now).2 = 6 ∧
       dateLE (format_week_range now).1 now ∧ dateLE now (format_week_range now).2 ∧
       (format_week_range now).2 = addDays (format_week_range now).1 6 ∧
       (webhook tt meal db uid t now).2 =
         (if fetch_calendar_items (format_week_range now).1 (format_week_range now).2 = [] then
            kakao_simple_text "이번 주 학사일정이 없습니다." (some qr_default)
          else
            kakao_simple_text ("이번 주 학사일정\n" ++
              joinNL (fetch_calendar_items (format_week_range now).1 (format_week_range now).2))
              (some qr_default))) ∧
    (hasTok "이번 주" (stripStr t) = false →
       (webhook tt meal db uid t now).2 =
         (if fetch_calendar_items ⟨now.year, now.month, 1⟩
              ⟨now.year, now.month, daysInMonth now.year now.month⟩ = [] then
            kakao_simple_text "이번 달 학사일정이 없습니다." (some qr_default)
          else
            kakao_simple_text ("이번 달 학사일정\n" ++
              joinNL (fetch_calendar_items ⟨now.year, now.month, 1⟩
                ⟨now.year, now.month, daysInMonth now.year now.month⟩))
              (some qr_default))) ∧
    (webhook tt meal db uid t now).1 = db := by
  obtain ⟨hy, hm1, hm2, _, _⟩ := (isValidDate_iff now).mp hnow
  have hme := month_end_eq now.year now.month hy hm1 hm2
  dsimp only at hme
  have h6' : (hasTok "학사" (stripStr t) || hasTok "일정" (stripStr t)) = true := by
    rcases h6 with h | h <;> simp [h]
  have hred : webhook tt meal db uid t now =
      (if hasTok "이번 주" (stripStr t) = true then
         (if (fetch_calendar_items (format_week_range now).1
              (format_week_range now).2).isEmpty = true then
            (db, kakao_simple_text "이번 주 학사일정이 없습니다." (some qr_default))
          else
            (db, kakao_simple_text ("이번 주 학사일정\n" ++
              joinNL (fetch_calendar_items (format_week_range now).1 (format_week_range now).2))
              (some qr_default)))
       else
         (if (fetch_calendar_items ⟨now.year, now.month, 1⟩
              ⟨now.year, now.month, daysInMonth now.year now.month⟩).isEmpty = true then
            (db, kakao_simple_text "이번 달 학사일정이 없습니다." (some qr_default))
          else
            (db, kakao_simple_text ("이번 달 학사일정\n" ++
              joinNL (fetch_calendar_items ⟨now.year, now.month, 1⟩
                ⟨now.year, now.month, daysInMonth now.year now.month⟩))
              (some qr_default)))) := by
    unfold webhook
    dsimp only
    rw [if_neg hu, h1, h2, h3, hreg, h4, h5]
    simp only [Bool.false_eq_true, if_false]
    rw [if_pos h6', hme]
  refine ⟨?_, ?_, ?_⟩
  · intro hweek
    obtain ⟨w1, w2, w3, w4, w5⟩ := format_week_range_spec now hnow
    refine ⟨w1, w2, w3, w4, w5, ?_⟩
    rw [hred, if_pos hweek]
    simp only [List.isEmpty_iff]
    split <;> rfl
  · intro hweek
    rw [hred, if_neg (by rw [hweek]; exact Bool.false_ne_true)]
    simp only [List.isEmpty_iff]
    split <;> rfl
  · rw [hred]
    repeat' split
    all_goals rfl

/-- C7 witness: on Sunday 2025-10-12, "이번 주 학사일정" is answered from the
week 2025-10-06 … 2025-10-12 (a non-empty week, so the item rendering is
returned), and "이번 달 학사일정" from 2025-10-01 … 2025-10-31. -/
theorem C7_witness :
    isValidDate ⟨2025, 10, 12⟩ = true ∧
    weekday (format_week_range ⟨2025, 10, 12⟩).1 = 0 ∧
    (webhook (fun _ => Except.error "e") (fun _ => Except.error "e")
        [("u", ⟨2, 8⟩)] "u" "이번 주 학사일정" ⟨2025, 10, 12⟩).2 =
      (if fetch_calendar_items (format_week_range ⟨2025, 10, 12⟩).1
           (format_week_range ⟨2025, 10, 12⟩).2 = [] then
         kakao_simple_text "이번 주 학사일정이 없습니다." (some qr_default)
       else
         kakao_simple_text ("이번 주 학사일정\n" ++
           joinNL (fetch_calendar_items (format_week_range ⟨2025, 10, 12⟩).1
             (format_week_range ⟨2025, 10, 12⟩).2)) (some qr_default)) ∧
    (webhook (fun _ => Except.error "e") (fun _ => Except.error "e")
        [("u", ⟨2, 8⟩)] "u" "이번 달 학사일정" ⟨2025, 10, 12⟩).2 =
      (if fetch_calendar_items ⟨2025, 10, 1⟩ ⟨2025, 10, 31⟩ = [] then
         kakao_simple_text "이번 달 학사일정이 없습니다." (some qr_default)
       else
         kakao_simple_text ("이번 달 학사일정\n" ++
           joinNL (fetch_calendar_items ⟨2025, 10, 1⟩ ⟨2025, 10, 31⟩)) (some qr_default)) := by
  refine ⟨by decide, ?_, ?_, ?_⟩
  · exact ((C7_calendar_ranges (fun _ => Except.error "e") (fun _ => Except.error "e")
      [("u", ⟨2, 8⟩)] "u" "이번 주 학사일정" ⟨2, 8⟩ ⟨2025, 10, 12⟩ (by decide) (by decide)
      (by decide) (by decide) (by decide) (by decide) (by decide) (Or.inl (by decide))
      (by decide)).1 (by decide)).1
  · exact ((C7_calendar_ranges (fun _ => Except.error "e") (fun _ => Except.error "e")
      [("u", ⟨2, 8⟩)] "u" "이번 주 학사일정" ⟨2, 8⟩ ⟨2025, 10, 12⟩ (by decide) (by decide)
      (by decide) (by decide) (by decide) (by decide) (by decide) (Or.inl (by decide))
      (by decide)).1 (by decide)).2.2.2.2.2
  · exact (C7_calendar_ranges (fun _ => Except.error "e") (fun _ => Except.error "e")
      [("u", ⟨2, 8⟩)] "u" "이번 달 학사일정" ⟨2, 8⟩ ⟨2025, 10, 12⟩ (by decide) (by decide)
      (by decide) (by decide) (by decide) (by decide) (by decide) (Or.inl (by decide))
      (by decide)).2.1 (by decide)
